import Mathlib

/-!
Shallow embedding of the counter module (`src/counter/mod.rs`) and the
command-line surface (`src/cli.rs`) of the divan benchmarking harness,
together with theorems settling the specification claims about them.

Machine integers are modelled as `Nat` with an explicit `% 2 ^ w` at the
points where overflow can occur. `usize` and the widest stored count type
(`MaxCountUInt`) are both 64 bits wide here, following the spec's
description of the widest representation ("sufficient to hold any
supported source width, e.g. 64 bits").
-/

namespace Divan

/-- Bit width of the widest stored-count representation `MaxCountUInt`. -/
def maxCountUIntBits : Nat := 64

/-- Bit width of `usize` on the modelled target. -/
def usizeBits : Nat := 64

/-- The unsigned integer types for which the `CountUInt` capability is
implemented (unsigned widths only; signed types are excluded statically). -/
inductive CountUIntTy where
  | u8
  | u16
  | u32
  | u64
  | usize
deriving DecidableEq, Repr

/-- Bit width of each supported `CountUInt` type. -/
def CountUIntTy.bits : CountUIntTy → Nat
  | .u8 => 8
  | .u16 => 16
  | .u32 => 32
  | .u64 => 64
  | .usize => usizeBits

/-- Modelled from the spec: `CountUInt::into_max_uint` lives in
`src/counter/uint.rs`, which is not part of the sources given; the spec
describes it as a lossless widening conversion of any supported unsigned
integer width into the single widest representation `MaxCountUInt`.
Storing an `n`-valued source integer into the `maxCountUIntBits`-bit
representation is reduction modulo `2 ^ maxCountUIntBits`. -/
def into_max_uint (_ty : CountUIntTy) (n : Nat) : Nat :=
  n % 2 ^ maxCountUIntBits

/-- `BytesCount` from `src/counter/mod.rs`: process N bytes. -/
structure BytesCount where
  count : Nat
deriving DecidableEq, Repr

/-- `CharsCount` from `src/counter/mod.rs`: process N `char`s. -/
structure CharsCount where
  count : Nat
deriving DecidableEq, Repr

/-- `ItemsCount` from `src/counter/mod.rs`: process N items. -/
structure ItemsCount where
  count : Nat
deriving DecidableEq, Repr

/-- A Rust value as far as `std::mem::size_of_val` observes it: either a
value of a statically sized type (carrying that type's static size), a
`[T]` slice (element size and length), or a `str` (UTF-8 text). -/
inductive RustVal where
  | sized (typeSize : Nat)
  | slice (elemSize len : Nat)
  | strVal (s : String)
deriving DecidableEq, Repr

/-- `std::mem::size_of_val`: the runtime footprint of a value. For a
statically sized value it is the type's static size; for a `[T]` slice it
is `size_of::<T>() * len`; for a `str` it is the UTF-8 byte length. -/
def size_of_val : RustVal → Nat
  | .sized typeSize => typeSize
  | .slice elemSize len => elemSize * len
  | .strVal s => s.utf8ByteSize

/-- One pass over an iterator, counting the elements it yields
(`iter.into_iter().count()`). -/
def iterCount {α : Type} : List α → Nat
  | [] => 0
  | _ :: t => iterCount t + 1

/-- `BytesCount::new`: widen the given count losslessly. -/
def BytesCount.new (ty : CountUIntTy) (n : Nat) : BytesCount :=
  ⟨into_max_uint ty n⟩

/-- `BytesCount::of::<T>()`: the static size of the type `T`
(`mem::size_of::<T>() as MaxCountUInt`; the cast from `usize` to the wider
`MaxCountUInt` is lossless). -/
def BytesCount.of (typeSize : Nat) : BytesCount :=
  ⟨typeSize⟩

/-- `BytesCount::of_val`: the runtime footprint of a value
(`mem::size_of_val(val) as MaxCountUInt`). -/
def BytesCount.of_val (v : RustVal) : BytesCount :=
  ⟨size_of_val v⟩

/-- `BytesCount::of_iter`: `Self::new(mem::size_of::<T>() * iter.into_iter().count())`.
The multiplication is `usize` arithmetic, hence the `% 2 ^ usizeBits`. -/
def BytesCount.of_iter {α : Type} (elemSize : Nat) (l : List α) : BytesCount :=
  BytesCount.new .usize (elemSize * iterCount l % 2 ^ usizeBits)

/-- `BytesCount::of_str`: `Self::of_val(s.as_ref())` where `as_ref`
yields the `str` view of the argument. -/
def BytesCount.of_str (s : String) : BytesCount :=
  BytesCount.of_val (.strVal s)

/-- An argument acceptable to `BytesCount::of_slice`, i.e. a sequence
value whose `AsRef<[T]>` view is a slice: a `&[T]` slice itself or a
`[T; N]` array. -/
inductive SeqVal where
  | sliceSeq (elemSize len : Nat)
  | arraySeq (elemSize len : Nat)
deriving DecidableEq, Repr

/-- `AsRef<[T]>::as_ref`: the borrowed slice view of a sequence value. -/
def SeqVal.as_ref : SeqVal → RustVal
  | .sliceSeq elemSize len => .slice elemSize len
  | .arraySeq elemSize len => .slice elemSize len

/-- The sequence value itself, as `size_of_val` observes it when applied
directly: a slice is dynamically sized; a `[T; N]` array is a statically
sized type of size `size_of::<T>() * N`. -/
def SeqVal.toVal : SeqVal → RustVal
  | .sliceSeq elemSize len => .slice elemSize len
  | .arraySeq elemSize len => .sized (elemSize * len)

/-- `BytesCount::of_slice`: `Self::of_val(s.as_ref())`. -/
def BytesCount.of_slice (s : SeqVal) : BytesCount :=
  BytesCount.of_val s.as_ref

/-- `CharsCount::new`: widen the given count losslessly. -/
def CharsCount.new (ty : CountUIntTy) (n : Nat) : CharsCount :=
  ⟨into_max_uint ty n⟩

/-- `CharsCount::of_str`: `Self::new(s.as_ref().chars().count())` — one
pass over the text's Unicode scalar values, counting them. -/
def CharsCount.of_str (s : String) : CharsCount :=
  CharsCount.new .usize (iterCount s.data)

/-- `ItemsCount::new`: widen the given count losslessly. -/
def ItemsCount.new (ty : CountUIntTy) (n : Nat) : ItemsCount :=
  ⟨into_max_uint ty n⟩

/-- The derived `Ord` on `BytesCount` (single-field struct): compare the
`count` fields. -/
def BytesCount.cmp (a b : BytesCount) : Ordering :=
  compare a.count b.count

/-- The derived `Ord` on `CharsCount`: compare the `count` fields. -/
def CharsCount.cmp (a b : CharsCount) : Ordering :=
  compare a.count b.count

/-- The derived `Ord` on `ItemsCount`: compare the `count` fields. -/
def ItemsCount.cmp (a b : ItemsCount) : Ordering :=
  compare a.count b.count

/-- `BytesFormat` from `src/counter/mod.rs`: the numerical base for
`BytesCount` in benchmark outputs. -/
inductive BytesFormat where
  | Decimal
  | Binary
deriving DecidableEq, Repr

/-- The derived `Default` for `BytesFormat`: the `#[default]` attribute
sits on the `Decimal` variant. -/
def BytesFormat.default : BytesFormat :=
  BytesFormat.Decimal

/-- `PrivBytesFormat`: private newtype around `BytesFormat` carrying the
`clap::ValueEnum` implementation. -/
structure PrivBytesFormat where
  val : BytesFormat
deriving DecidableEq, Repr

/-- `clap::ValueEnum::value_variants` for `PrivBytesFormat`. -/
def PrivBytesFormat.value_variants : List PrivBytesFormat :=
  [⟨.Decimal⟩, ⟨.Binary⟩]

/-- `clap::ValueEnum::to_possible_value` for `PrivBytesFormat` (the
rendered name of each variant; `Some` is always returned, so the name
itself is what matters). -/
def PrivBytesFormat.to_possible_value : PrivBytesFormat → String
  | ⟨.Decimal⟩ => "decimal"
  | ⟨.Binary⟩ => "binary"

/-- How clap resolves a user-supplied value against a `ValueEnum`: the
first declared variant whose possible-value name matches the input, if
any. -/
def parseBytesFormat (s : String) : Option PrivBytesFormat :=
  PrivBytesFormat.value_variants.find? (fun v => v.to_possible_value == s)

/-- One command-line argument as declared in `src/cli.rs`: its long name,
the arguments it `conflicts_with`, and the arguments it
`overrides_with`. -/
structure ArgSpec where
  name : String
  conflictsWith : List String
  overridesWith : List String
deriving DecidableEq, Repr

/-- An argument with neither conflicts nor overrides. -/
def arg (n : String) : ArgSpec :=
  ⟨n, [], []⟩

/-- An argument with a `conflicts_with` list. -/
def argConflicts (n : String) (cs : List String) : ArgSpec :=
  ⟨n, cs, []⟩

/-- The argument set built by `command()` in `src/cli.rs`, in declaration
order, with each argument's `conflicts_with` and `overrides_with`
relations. -/
def divanArgs : List ArgSpec :=
  [ arg "filter",
    argConflicts "test" ["list"],
    argConflicts "list" ["test"],
    arg "color",
    arg "format",
    arg "skip",
    arg "exact",
    argConflicts "ignored" ["include-ignored"],
    argConflicts "include-ignored" ["ignored"],
    arg "sort",
    ⟨"sortr", [], ["sort"]⟩,
    arg "timer",
    arg "sample-count",
    arg "sample-size",
    arg "min-time",
    arg "max-time",
    arg "skip-ext-time",
    arg "bench",
    arg "nocapture",
    arg "show-output" ]

/-- The `conflicts_with` list of the named argument (empty for a name not
declared). -/
def conflictsOf (n : String) : List String :=
  match divanArgs.find? (fun a => a.name == n) with
  | some a => a.conflictsWith
  | none => []

/-- Whether clap accepts a command line in which exactly the named
arguments are present, as far as conflict checking goes: no present
argument may have a present argument in its `conflicts_with` list. -/
def acceptsArgs (present : List String) : Bool :=
  present.all (fun n => (conflictsOf n).all (fun c => !(present.contains c)))

/-- `SortingAttr` from `src/config.rs` (its `ValueEnum` variants are
declared in `src/cli.rs`): the attribute benchmarks are sorted by. -/
inductive SortingAttr where
  | Kind
  | Name
  | Location
deriving DecidableEq, Repr

/-- The sorting part of the resolved configuration: the attribute to sort
by and whether the order is descending. -/
structure SortConfig where
  attr : SortingAttr
  descending : Bool
deriving DecidableEq, Repr

/-- Modelled from the spec: the code that reads the parsed `--sort` /
`--sortr` matches into the configuration is in `src/config.rs`, which is
not part of the sources given. Per `src/cli.rs`, `--sort` sorts in
ascending order with default value `"kind"`, `--sortr` sorts in
descending order and `overrides_with("sort")`, i.e. a present `--sortr`
discards the `--sort` value (including its default). -/
def resolveSort (sortArg sortrArg : Option SortingAttr) : SortConfig :=
  match sortrArg with
  | some a => ⟨a, true⟩
  | none => ⟨sortArg.getD SortingAttr.Kind, false⟩

/-! ### Helper lemmas -/

/-- The one-pass element count of an iterator equals the number of
elements it yields. -/
theorem iterCount_eq_length {α : Type} (l : List α) : iterCount l = l.length := by
  induction l with
  | nil => rfl
  | cons h t ih => simp [iterCount, ih]

/-- `compare` on two naturals is never `gt` exactly when the first is at
most the second; antisymmetry of the underlying order. -/
theorem cmpNatAntisymm {x y : Nat} (h1 : compare x y ≠ Ordering.gt)
    (h2 : compare y x ≠ Ordering.gt) : x = y :=
  Nat.le_antisymm (Nat.compare_ne_gt.mp h1) (Nat.compare_ne_gt.mp h2)

/-- Transitivity of `compare · · ≠ .gt` on naturals. -/
theorem cmpNatTrans {x y z : Nat} (h1 : compare x y ≠ Ordering.gt)
    (h2 : compare y z ≠ Ordering.gt) : compare x z ≠ Ordering.gt :=
  Nat.compare_ne_gt.mpr
    (Nat.le_trans (Nat.compare_ne_gt.mp h1) (Nat.compare_ne_gt.mp h2))

/-! ### Claim theorems -/

/-- C2: `BytesCount::of_slice(s)` equals `BytesCount::of_val(s)` for
every sequence value `s` — the slice convenience constructor agrees with
the runtime-footprint constructor on slices and arrays. -/
theorem of_slice_eq_of_val (s : SeqVal) :
    BytesCount.of_slice s = BytesCount.of_val s.toVal := by
  cases s <;> rfl

/-- C9: `BytesCount::of::<T>()` equals `BytesCount::of_val(&v)` for every
statically sized type `T` and value `v` of that type: the static size and
the runtime footprint of a sized value coincide. -/
theorem of_eq_of_val_sized (typeSize : Nat) :
    BytesCount.of typeSize = BytesCount.of_val (.sized typeSize) :=
  rfl

/-- C6: the default `BytesFormat` is `Decimal`, not `Binary`. -/
theorem bytes_format_default_decimal :
    BytesFormat.default = BytesFormat.Decimal ∧
      BytesFormat.default ≠ BytesFormat.Binary :=
  ⟨rfl, by decide⟩

/-- C10: when both `--sort` and `--sortr` are supplied, the `--sortr`
value wins (including over `--sort`'s default `kind`): the resolved
configuration sorts in descending order by the `--sortr` attribute,
exactly as if `--sort` had not been given. -/
theorem sortr_overrides_sort :
    (∀ s r : SortingAttr, resolveSort (some s) (some r) = ⟨r, true⟩) ∧
      (∀ s r : SortingAttr,
        resolveSort (some s) (some r) = resolveSort none (some r)) ∧
      resolveSort (some SortingAttr.Kind) (some SortingAttr.Name) =
        ⟨SortingAttr.Name, true⟩ :=
  ⟨fun _ _ => rfl, fun _ _ => rfl, rfl⟩

/-- C1: `BytesCount::of_iter` makes one pass over the iterable (the
single-fold element count `iterCount`), and whenever the product of the
element footprint and the number of elements yielded is representable in
`usize`, the resulting count is exactly that product; in particular over
the three 4-byte integers `[1, 2, 3]` it equals
`BytesCount::of_slice(&[1, 2, 3])`, both counting 12 bytes. -/
theorem of_iter_one_pass_size :
    (∀ (α : Type) (elemSize : Nat) (l : List α),
        elemSize * l.length < 2 ^ usizeBits →
        BytesCount.of_iter elemSize l = ⟨elemSize * l.length⟩) ∧
      BytesCount.of_iter 4 [(1 : Nat), 2, 3] =
        BytesCount.of_slice (.arraySeq 4 3) ∧
      (BytesCount.of_iter 4 [(1 : Nat), 2, 3]).count = 12 := by
  refine ⟨?_, by decide, by decide⟩
  intro α elemSize l h
  simp only [BytesCount.of_iter, BytesCount.new, into_max_uint,
    iterCount_eq_length, usizeBits, maxCountUIntBits] at h ⊢
  rw [Nat.mod_eq_of_lt h, Nat.mod_eq_of_lt h]

/-- Witness for C1 at a concrete input. -/
theorem of_iter_one_pass_size_witness :
    BytesCount.of_iter 8 [(10 : Nat), 20] = ⟨16⟩ :=
  of_iter_one_pass_size.1 Nat 8 [10, 20] (by decide)

/-- C3: `CharsCount::of_str` counts the Unicode scalar values of the
text (whenever that number is representable in `usize`), not its byte
length; in particular `CharsCount::of_str("héllo")` equals
`CharsCount::new(5)` even though the UTF-8 encoding is 6 bytes. -/
theorem of_str_counts_code_points :
    (∀ s : String, s.data.length < 2 ^ usizeBits →
        CharsCount.of_str s = ⟨s.data.length⟩) ∧
      CharsCount.of_str "héllo" = CharsCount.new .usize 5 ∧
      String.utf8ByteSize "héllo" = 6 ∧
      (CharsCount.of_str "héllo").count ≠ String.utf8ByteSize "héllo" := by
  refine ⟨?_, by decide, by decide, by decide⟩
  intro s h
  simp only [CharsCount.of_str, CharsCount.new, into_max_uint,
    iterCount_eq_length, usizeBits, maxCountUIntBits] at h ⊢
  rw [Nat.mod_eq_of_lt h]

/-- Witness for C3 at a concrete input. -/
theorem of_str_counts_code_points_witness :
    CharsCount.of_str "abc" = ⟨("abc" : String).data.length⟩ :=
  of_str_counts_code_points.1 "abc" (by decide)

/-- C4: for every supported unsigned integer width and every value
representable in that width, the widening conversion `into_max_uint`
preserves the numeric value exactly. -/
theorem into_max_uint_lossless :
    ∀ (ty : CountUIntTy) (n : Nat), n < 2 ^ ty.bits → into_max_uint ty n = n := by
  intro ty n h
  apply Nat.mod_eq_of_lt
  have hle : 2 ^ ty.bits ≤ 2 ^ maxCountUIntBits := by
    cases ty <;> simp only [CountUIntTy.bits, maxCountUIntBits, usizeBits] <;>
      norm_num
  exact lt_of_lt_of_le h hle

/-- Witness for C4 at a concrete input. -/
theorem into_max_uint_lossless_witness :
    into_max_uint CountUIntTy.u16 65535 = 65535 :=
  into_max_uint_lossless CountUIntTy.u16 65535 (by decide)

/-- C5: for each concrete counter kind, the derived equality and ordering
agree exactly with numeric equality and ordering of the underlying
counts, and the order (`cmp · · ≠ .gt`) is reflexive, antisymmetric and
transitive. -/
theorem counter_ord_agrees :
    ((∀ a b : BytesCount,
        (a = b ↔ a.count = b.count) ∧
        (BytesCount.cmp a b = .eq ↔ a.count = b.count) ∧
        (BytesCount.cmp a b = .lt ↔ a.count < b.count) ∧
        (BytesCount.cmp a b = .gt ↔ b.count < a.count)) ∧
      (∀ a : BytesCount, BytesCount.cmp a a = .eq) ∧
      (∀ a b : BytesCount,
        BytesCount.cmp a b ≠ .gt → BytesCount.cmp b a ≠ .gt → a = b) ∧
      (∀ a b c : BytesCount,
        BytesCount.cmp a b ≠ .gt → BytesCount.cmp b c ≠ .gt →
        BytesCount.cmp a c ≠ .gt)) ∧
    ((∀ a b : CharsCount,
        (a = b ↔ a.count = b.count) ∧
        (CharsCount.cmp a b = .eq ↔ a.count = b.count) ∧
        (CharsCount.cmp a b = .lt ↔ a.count < b.count) ∧
        (CharsCount.cmp a b = .gt ↔ b.count < a.count)) ∧
      (∀ a : CharsCount, CharsCount.cmp a a = .eq) ∧
      (∀ a b : CharsCount,
        CharsCount.cmp a b ≠ .gt → CharsCount.cmp b a ≠ .gt → a = b) ∧
      (∀ a b c : CharsCount,
        CharsCount.cmp a b ≠ .gt → CharsCount.cmp b c ≠ .gt →
        CharsCount.cmp a c ≠ .gt)) ∧
    ((∀ a b : ItemsCount,
        (a = b ↔ a.count = b.count) ∧
        (ItemsCount.cmp a b = .eq ↔ a.count = b.count) ∧
        (ItemsCount.cmp a b = .lt ↔ a.count < b.count) ∧
        (ItemsCount.cmp a b = .gt ↔ b.count < a.count)) ∧
      (∀ a : ItemsCount, ItemsCount.cmp a a = .eq) ∧
      (∀ a b : ItemsCount,
        ItemsCount.cmp a b ≠ .gt → ItemsCount.cmp b a ≠ .gt → a = b) ∧
      (∀ a b c : ItemsCount,
        ItemsCount.cmp a b ≠ .gt → ItemsCount.cmp b c ≠ .gt →
        ItemsCount.cmp a c ≠ .gt)) := by
  refine ⟨⟨?_, ?_, ?_, ?_⟩, ⟨?_, ?_, ?_, ?_⟩, ⟨?_, ?_, ?_, ?_⟩⟩
  · intro a b
    cases a
    cases b
    exact ⟨by simp, Nat.compare_eq_eq, Nat.compare_eq_lt, Nat.compare_eq_gt⟩
  · intro a
    exact Nat.compare_eq_eq.mpr rfl
  · intro a b h1 h2
    cases a
    cases b
    exact congrArg BytesCount.mk (cmpNatAntisymm h1 h2)
  · intro a b c h1 h2
    exact cmpNatTrans h1 h2
  · intro a b
    cases a
    cases b
    exact ⟨by simp, Nat.compare_eq_eq, Nat.compare_eq_lt, Nat.compare_eq_gt⟩
  · intro a
    exact Nat.compare_eq_eq.mpr rfl
  · intro a b h1 h2
    cases a
    cases b
    exact congrArg CharsCount.mk (cmpNatAntisymm h1 h2)
  · intro a b c h1 h2
    exact cmpNatTrans h1 h2
  · intro a b
    cases a
    cases b
    exact ⟨by simp, Nat.compare_eq_eq, Nat.compare_eq_lt, Nat.compare_eq_gt⟩
  · intro a
    exact Nat.compare_eq_eq.mpr rfl
  · intro a b h1 h2
    cases a
    cases b
    exact congrArg ItemsCount.mk (cmpNatAntisymm h1 h2)
  · intro a b c h1 h2
    exact cmpNatTrans h1 h2

/-- Witness for C5: antisymmetry of the bytes ordering at a concrete
input. -/
theorem counter_ord_agrees_witness : (⟨5⟩ : BytesCount) = ⟨5⟩ :=
  counter_ord_agrees.1.2.2.1 ⟨5⟩ ⟨5⟩ (by decide) (by decide)

/-- C7: the externally selectable `BytesFormat` values are exactly the
two named choices `"decimal"` (mapping to `Decimal`) and `"binary"`
(mapping to `Binary`); every other string is rejected. -/
theorem bytes_format_two_choices :
    parseBytesFormat "decimal" = some ⟨BytesFormat.Decimal⟩ ∧
      parseBytesFormat "binary" = some ⟨BytesFormat.Binary⟩ ∧
      ∀ s : String, s ≠ "decimal" → s ≠ "binary" → parseBytesFormat s = none := by
  refine ⟨by decide, by decide, ?_⟩
  intro s h1 h2
  have e1 : (PrivBytesFormat.to_possible_value ⟨.Decimal⟩ == s) = false :=
    beq_eq_false_iff_ne.mpr fun h => h1 h.symm
  have e2 : (PrivBytesFormat.to_possible_value ⟨.Binary⟩ == s) = false :=
    beq_eq_false_iff_ne.mpr fun h => h2 h.symm
  simp [parseBytesFormat, PrivBytesFormat.value_variants, List.find?, e1, e2]

/-- Witness for C7: a value outside the two named choices is rejected. -/
theorem bytes_format_two_choices_witness : parseBytesFormat "bits" = none :=
  bytes_format_two_choices.2.2 "bits" (by decide) (by decide)

/-- C8: `--test` and `--list` are mutually exclusive: every command line
containing both is rejected by conflict checking, while each of them
alone is accepted. -/
theorem test_list_mutually_exclusive :
    (∀ present : List String, "test" ∈ present → "list" ∈ present →
        acceptsArgs present = false) ∧
      acceptsArgs ["test"] = true ∧ acceptsArgs ["list"] = true := by
  refine ⟨?_, by decide, by decide⟩
  intro present ht hl
  cases hacc : acceptsArgs present with
  | false => rfl
  | true =>
    exfalso
    have h1 := List.all_eq_true.mp hacc "test" ht
    simp only at h1
    have h2 := List.all_eq_true.mp h1 "list" (by decide)
    simp only [Bool.not_eq_true'] at h2
    have h3 : present.contains "list" = true := List.elem_eq_true_of_mem hl
    rw [h3] at h2
    exact Bool.noConfusion h2

/-- Witness for C8: the command line holding both flags is rejected. -/
theorem test_list_mutually_exclusive_witness :
    acceptsArgs ["test", "list"] = false :=
  test_list_mutually_exclusive.1 ["test", "list"] (by decide) (by decide)

end Divan
